import Mathlib

/-!
# Verification of the `Password` prompt of the `inquire` crate

Shallow embedding of `src/prompts/password.rs`.  The prompt state machine
(`on_change`, `get_final_answer`, `render`, and the render/input loop
`prompt`) is translated from the source.  Parts of the crate whose source is
not available here (the `Key` model, the `Renderer` interface, and the
grapheme-segmentation routine of the external `unicode_segmentation`
dependency) are modelled from the specification and are marked as such.

Content is modelled as a `List Char` (a Rust `String` is a sequence of
`char` code points); rendering is modelled as the list of renderer
primitive calls the prompt issues; the blocking `read_key` loop is modelled
as a function consuming a finite script of key events, returning the
result, the emitted render operations, and the unconsumed events.
-/

/-- Modelled from the spec: the grapheme-segmentation routine groups code
points into user-perceived characters; combining marks, variation
selectors, skin-tone modifiers and zero-width-joiner sequences attach to
the preceding cluster (simplified pairwise UAX-29 rules). A code point that
extends the preceding cluster. -/
def isExtend (c : Char) : Bool :=
  c.toNat = 0x200D
    || (0x0300 ≤ c.toNat && c.toNat ≤ 0x036F)
    || (0xFE00 ≤ c.toNat && c.toNat ≤ 0xFE0F)
    || (0x1F3FB ≤ c.toNat && c.toNat ≤ 0x1F3FF)

/-- Modelled from the spec: no grapheme boundary between `a` and `b` when
`b` extends the cluster or `a` is a zero-width joiner. -/
def joinsLeft (a b : Char) : Bool :=
  isExtend b || a.toNat = 0x200D

/-- Modelled from the spec: the cluster containing the leading code point
`a`, paired with the clusters of the remaining code points. -/
def graphemesCore (a : Char) : List Char → List Char × List (List Char)
  | [] => ([a], [])
  | b :: rest =>
    if joinsLeft a b then
      (a :: (graphemesCore b rest).1, (graphemesCore b rest).2)
    else
      ([a], (graphemesCore b rest).1 :: (graphemesCore b rest).2)

/-- Modelled from the spec: split a sequence of code points into grapheme
clusters (maximal runs with no boundary between adjacent code points). -/
def graphemes : List Char → List (List Char)
  | [] => []
  | a :: rest => (graphemesCore a rest).1 :: (graphemesCore a rest).2

/-- Modelled from the spec: key modifier flags; editing only distinguishes
`NONE` from any other combination. -/
inductive KeyModifiers where
  | NONE
  | SHIFT
  | CONTROL
  | ALT
deriving DecidableEq

/-- Modelled from the spec: the closed set of logical key events produced
by the input backend. -/
inductive Key where
  | char (c : Char) (m : KeyModifiers)
  | backspace
  | delete
  | up
  | down
  | left
  | right
  | submit
  | cancel
  | help
deriving DecidableEq

/-- Error kinds surfaced by a prompt run: user cancellation, or an
input/output failure (here: the scripted input ran out). -/
inductive InquireError where
  | operationCanceled
  | ioError
deriving DecidableEq

/-- `StringFormatter`: maps the final content to the text shown after
submission. -/
abbrev StringFormatter := List Char → String

/-- `StringValidator`: accepts candidate content or rejects it with a
message. -/
abbrev StringValidator := List Char → Except String Unit

/-- Modelled from the spec: one primitive call on the `Renderer`; a frame
is the list of calls issued, in order. -/
inductive RenderOp where
  | resetPrompt
  | printErrorMessage (msg : String)
  | printPrompt (msg : String) (defaultValue : Option String) (preview : Option String)
  | printHelp (msg : String)
  | flush
  | cleanup (message : String) (formatted : String)
deriving DecidableEq

/-- The `Password` options struct. -/
structure Password where
  message : String
  help_message : Option String
  formatter : StringFormatter
  validators : List StringValidator

/-- Default formatter: every answer is rendered as `"********"`. -/
def Password.DEFAULT_FORMATTER : StringFormatter := fun _ => "********"

/-- Default collection of validators. -/
def Password.DEFAULT_VALIDATORS : List StringValidator := []

/-- Default help message. -/
def Password.DEFAULT_HELP_MESSAGE : Option String := none

/-- Creates a `Password` with the provided message and default options. -/
def Password.new (message : String) : Password :=
  { message := message
    help_message := Password.DEFAULT_HELP_MESSAGE
    formatter := Password.DEFAULT_FORMATTER
    validators := Password.DEFAULT_VALIDATORS }

/-- Sets the help message of the prompt. -/
def Password.with_help_message (p : Password) (message : String) : Password :=
  { p with help_message := some message }

/-- Sets the formatter. -/
def Password.with_formatter (p : Password) (formatter : StringFormatter) : Password :=
  { p with formatter := formatter }

/-- Adds a validator to the collection of validators. -/
def Password.with_validator (p : Password) (validator : StringValidator) : Password :=
  { p with validators := p.validators ++ [validator] }

/-- The ephemeral `PasswordPrompt` state driving one `prompt()` call. -/
structure PasswordPrompt where
  message : String
  help_message : Option String
  content : List Char
  formatter : StringFormatter
  validators : List StringValidator
  error : Option String

/-- `From<Password> for PasswordPrompt`: empty content, no error. -/
def PasswordPrompt.ofPassword (so : Password) : PasswordPrompt :=
  { message := so.message
    help_message := so.help_message
    formatter := so.formatter
    validators := so.validators
    content := []
    error := none }

/-- `PasswordPrompt::on_change`: `Backspace` drops the last grapheme
cluster (saturating); `Char(c, NONE)` pushes `c`; everything else is
ignored. -/
def on_change (p : PasswordPrompt) (key : Key) : PasswordPrompt :=
  match key with
  | Key.backspace =>
    let len := (graphemes p.content).length
    let new_len := len - 1
    { p with content := ((graphemes p.content).take new_len).flatten }
  | Key.char c KeyModifiers.NONE => { p with content := p.content ++ [c] }
  | _ => p

/-- The `for validator in &self.validators` loop of `get_final_answer`:
returns the first validator error, or `Ok`. -/
def validateAll (vs : List StringValidator) (c : List Char) : Except String Unit :=
  match vs with
  | [] => Except.ok ()
  | v :: rest =>
    match v c with
    | Except.ok _ => validateAll rest c
    | Except.error e => Except.error e

/-- `PasswordPrompt::get_final_answer`: run the validators; on first
failure return its message, otherwise return the content. -/
def get_final_answer (p : PasswordPrompt) : Except String (List Char) :=
  match validateAll p.validators p.content with
  | Except.ok _ => Except.ok p.content
  | Except.error e => Except.error e

/-- `PasswordPrompt::render`: reset, optional error line, question line
(with no default and no content preview), optional help line, flush. -/
def render (p : PasswordPrompt) : List RenderOp :=
  [RenderOp.resetPrompt]
    ++ (match p.error with
        | some err => [RenderOp.printErrorMessage err]
        | none => [])
    ++ [RenderOp.printPrompt p.message none none]
    ++ (match p.help_message with
        | some m => [RenderOp.printHelp m]
        | none => [])
    ++ [RenderOp.flush]

/-- Outcome of running the prompt loop against a finite key script. -/
structure PromptOutcome where
  result : Except InquireError (List Char)
  output : List RenderOp
  remaining : List Key

/-- `PasswordPrompt::prompt`: render, read a key, dispatch; `Cancel`
fails, `Submit` validates and either exits (painting the cleanup frame
with the formatted answer) or stores the error and continues; other keys
go to `on_change`.  An exhausted script is an I/O read failure. -/
def promptLoop (p : PasswordPrompt) : List Key → PromptOutcome
  | [] => ⟨Except.error InquireError.ioError, render p, []⟩
  | k :: ks =>
    match k with
    | Key.cancel => ⟨Except.error InquireError.operationCanceled, render p, ks⟩
    | Key.submit =>
      match get_final_answer p with
      | Except.ok answer =>
        ⟨Except.ok answer,
          render p ++ [RenderOp.cleanup p.message (p.formatter answer)], ks⟩
      | Except.error err =>
        let t := promptLoop { p with error := some err } ks
        ⟨t.result, render p ++ t.output, t.remaining⟩
    | key =>
      let t := promptLoop (on_change p key) ks
      ⟨t.result, render p ++ t.output, t.remaining⟩

/-- Spec-side editing step (from the spec's words): a fold that appends
the character of a plain `Char` event and drops the last grapheme cluster
on `Backspace` (no-op if empty); every other event leaves the content
unchanged. -/
def specEditStep (s : List Char) (k : Key) : List Char :=
  match k with
  | Key.char c KeyModifiers.NONE => s ++ [c]
  | Key.backspace => ((graphemes s).dropLast).flatten
  | _ => s

/-- Is this key a plain character insertion or a backspace? -/
def isEditKey : Key → Bool
  | Key.char _ KeyModifiers.NONE => true
  | Key.backspace => true
  | _ => false

/-- Process a sequence of key events with `on_change`. -/
def applyEvents (p : PasswordPrompt) : List Key → PasswordPrompt
  | [] => p
  | k :: ks => applyEvents (on_change p k) ks

/-- Process `n` consecutive `Backspace` events with `on_change`. -/
def applyBackspaces (p : PasswordPrompt) : Nat → PasswordPrompt
  | 0 => p
  | n + 1 => applyBackspaces (on_change p Key.backspace) n

/-- Spec-side validation outcome (from the spec's words): the message of
the first failing validator, in declaration order, if any fails. -/
def firstFailingMessage : List StringValidator → List Char → Option String
  | [], _ => none
  | v :: vs, c =>
    match v c with
    | Except.ok _ => firstFailingMessage vs c
    | Except.error e => some e

/-- Does the script reach a `Cancel` before any accepted `Submit`, along
the prompt's own processing of the events? -/
def reachesCancel (p : PasswordPrompt) : List Key → Bool
  | [] => false
  | Key.cancel :: _ => true
  | Key.submit :: rest =>
    match get_final_answer p with
    | Except.ok _ => false
    | Except.error e => reachesCancel { p with error := some e } rest
  | k :: rest => reachesCancel (on_change p k) rest

/-- Is this render operation the final cleanup paint? -/
def isCleanup : RenderOp → Bool
  | RenderOp.cleanup _ _ => true
  | _ => false

/-- Does the emitted output contain a cleanup paint? -/
def hasCleanup (out : List RenderOp) : Bool := out.any isCleanup

/-! ## Concrete values used by the witnesses -/

/-- A fresh default prompt state, as built by `Password::new`. -/
def qPrompt : PasswordPrompt := PasswordPrompt.ofPassword (Password.new "Question?")

/-- A length-window validator like the one in the repository's tests. -/
def lenValidator : StringValidator := fun c =>
  if 5 < c.length ∧ c.length < 10 then Except.ok () else Except.error "Invalid"

/-- A prompt state holding content that `lenValidator` rejects. -/
def failPrompt : PasswordPrompt :=
  { qPrompt with validators := [lenValidator], content := "1234567890".toList }

/-- The code points of the man-in-lotus-position emoji with skin tone:
five code points, one grapheme cluster. -/
def emojiChars : List Char :=
  [Char.ofNat 0x1F9D8, Char.ofNat 0x1F3FB, Char.ofNat 0x200D,
    Char.ofNat 0x2642, Char.ofNat 0xFE0F]

/-- Key events typing `'a'`, then the five-code-point emoji, then one
backspace. -/
def emojiEvents : List Key :=
  Key.char 'a' KeyModifiers.NONE
    :: emojiChars.map (fun c => Key.char c KeyModifiers.NONE) ++ [Key.backspace]

example : (graphemes "abc".toList).length = 3 := by decide

example :
    (graphemes [Char.ofNat 0x1F9D8, Char.ofNat 0x1F3FB, Char.ofNat 0x200D,
      Char.ofNat 0x2642, Char.ofNat 0xFE0F]).length = 1 := by decide

example : emojiEvents.foldl specEditStep [] = ['a'] := by decide


/-! ## Grapheme segmentation lemmas -/

/-- The cluster containing the leading code point starts with it. -/
theorem graphemesCore_head (a : Char) (r : List Char) :
    ∃ t, (graphemesCore a r).1 = a :: t := by
  cases r with
  | nil => exact ⟨[], rfl⟩
  | cons b rest =>
    by_cases h : joinsLeft a b = true
    · exact ⟨(graphemesCore b rest).1, by simp [graphemesCore, h]⟩
    · exact ⟨[], by simp [graphemesCore, h]⟩

/-- The two branches of `graphemesCore` on a non-empty tail, as
equations. -/
theorem graphemesCore_cons_pos (a b : Char) (rest : List Char)
    (h : joinsLeft a b = true) :
    graphemesCore a (b :: rest)
      = (a :: (graphemesCore b rest).1, (graphemesCore b rest).2) := by
  simp [graphemesCore, h]

/-- Negative branch of `graphemesCore` on a non-empty tail. -/
theorem graphemesCore_cons_neg (a b : Char) (rest : List Char)
    (h : ¬joinsLeft a b = true) :
    graphemesCore a (b :: rest)
      = ([a], (graphemesCore b rest).1 :: (graphemesCore b rest).2) := by
  simp [graphemesCore, h]

/-- Concatenating the clusters gives back the code points. -/
theorem graphemesCore_flatten (r : List Char) : ∀ a : Char,
    (graphemesCore a r).1 ++ ((graphemesCore a r).2).flatten = a :: r := by
  induction r with
  | nil => intro a; rfl
  | cons b rest ih =>
    intro a
    by_cases h : joinsLeft a b = true
    · rw [graphemesCore_cons_pos a b rest h]
      simpa using ih b
    · rw [graphemesCore_cons_neg a b rest h]
      simpa using ih b

/-- Segmentation loses no code points: flattening the clusters is the
identity. -/
theorem graphemes_flatten (s : List Char) : (graphemes s).flatten = s := by
  cases s with
  | nil => rfl
  | cons a r =>
    simpa [graphemes] using graphemesCore_flatten r a

/-- Stability: re-segmenting the text obtained by dropping the last
cluster yields exactly the remaining clusters. -/
theorem graphemesCore_stable (r : List Char) : ∀ a : Char,
    graphemes ((((graphemesCore a r).1 :: (graphemesCore a r).2).dropLast).flatten)
      = ((graphemesCore a r).1 :: (graphemesCore a r).2).dropLast := by
  induction r with
  | nil => intro a; rfl
  | cons b rest ih =>
    intro a
    obtain ⟨g', hg⟩ := graphemesCore_head b rest
    have ihb := ih b
    by_cases h : joinsLeft a b = true
    · rw [graphemesCore_cons_pos a b rest h]
      cases hC : (graphemesCore b rest).2 with
      | nil =>
        simp [graphemes, graphemesCore, hC]
      | cons d ds =>
        rw [hC, hg] at ihb
        rw [List.dropLast_cons₂, List.flatten_cons, List.cons_append] at ihb
        simp only [graphemes] at ihb
        rw [List.cons.injEq] at ihb  -- componentwise
        rw [hg, List.dropLast_cons₂, List.flatten_cons, List.cons_append, List.cons_append]
        simp only [graphemes, graphemesCore_cons_pos a b _ h, ihb.1, ihb.2]
    · rw [graphemesCore_cons_neg a b rest h]
      cases hC : (graphemesCore b rest).2 with
      | nil =>
        simp [graphemes, graphemesCore, hC]
      | cons d ds =>
        rw [hC, hg] at ihb
        rw [List.dropLast_cons₂, List.flatten_cons, List.cons_append] at ihb
        simp only [graphemes] at ihb
        rw [List.cons.injEq] at ihb
        rw [hg, List.dropLast_cons₂, List.dropLast_cons₂, List.flatten_cons, List.flatten_cons,
          List.singleton_append, List.cons_append]
        simp only [graphemes, graphemesCore_cons_neg a b _ h, ihb.1, ihb.2]

/-- Stability, top-level form. -/
theorem graphemes_stable (s : List Char) :
    graphemes (((graphemes s).dropLast).flatten) = (graphemes s).dropLast := by
  cases s with
  | nil => rfl
  | cons a r => simpa [graphemes] using graphemesCore_stable r a

/-! ## State-machine helper lemmas -/

/-- `on_change` is exactly the spec's editing step on `content`, leaving
every other field unchanged. -/
theorem on_change_eq (p : PasswordPrompt) (k : Key) :
    on_change p k = { p with content := specEditStep p.content k } := by
  cases k with
  | char c m => cases m <;> rfl
  | backspace =>
    simp only [on_change, specEditStep, List.dropLast_eq_take]
  | delete => rfl
  | up => rfl
  | down => rfl
  | left => rfl
  | right => rfl
  | submit => rfl
  | cancel => rfl
  | help => rfl

/-- `validateAll` succeeds or fails exactly as the spec's "first failing
validator" description. -/
theorem validateAll_eq (vs : List StringValidator) (c : List Char) :
    validateAll vs c =
      (match firstFailingMessage vs c with
        | none => Except.ok ()
        | some e => Except.error e) := by
  induction vs with
  | nil => rfl
  | cons v rest ih =>
    cases h : v c with
    | ok u => simp only [validateAll, firstFailingMessage, h, ih]
    | error e => simp only [validateAll, firstFailingMessage, h]

/-- `get_final_answer` in terms of the spec's first failing validator. -/
theorem get_final_answer_eq (p : PasswordPrompt) :
    get_final_answer p =
      (match firstFailingMessage p.validators p.content with
        | none => Except.ok p.content
        | some e => Except.error e) := by
  simp only [get_final_answer, validateAll_eq]
  cases firstFailingMessage p.validators p.content <;> rfl

/-- A `validateAll` failure is produced by the first failing validator:
everything before it accepted the content. -/
theorem validateAll_error_first (vs : List StringValidator) (c : List Char) (e : String)
    (h : validateAll vs c = Except.error e) :
    ∃ pre v post, vs = pre ++ v :: post ∧ v c = Except.error e
      ∧ ∀ u ∈ pre, u c = Except.ok () := by
  induction vs with
  | nil => simp [validateAll] at h
  | cons v rest ih =>
    rw [validateAll] at h
    cases hv : v c with
    | ok u =>
      rw [hv] at h
      obtain ⟨pre, w, post, h1, h2, h3⟩ := ih h
      refine ⟨v :: pre, w, post, by rw [h1]; rfl, h2, ?_⟩
      intro u hu
      rcases List.mem_cons.mp hu with rfl | hu
      · rw [hv]
      · exact h3 u hu
    | error e2 =>
      rw [hv] at h
      cases h
      exact ⟨[], v, rest, rfl, hv, by intro u hu; cases hu⟩

/-- The first frame operation is always a prompt reset. -/
theorem render_head (p : PasswordPrompt) :
    ∃ t, render p = RenderOp.resetPrompt :: t := ⟨_, rfl⟩

/-- A frame is never empty. -/
theorem render_ne_nil (p : PasswordPrompt) : render p ≠ [] := by
  obtain ⟨t, ht⟩ := render_head p
  simp [ht]

/-- The interactive frame never contains the cleanup paint. -/
theorem hasCleanup_render (p : PasswordPrompt) : hasCleanup (render p) = false := by
  unfold render hasCleanup
  cases p.error <;> cases p.help_message <;> simp [isCleanup]

/-- `render` depends only on `message`, `help_message` and `error`. -/
theorem render_eq_of_fields (p q : PasswordPrompt) (hm : p.message = q.message)
    (hh : p.help_message = q.help_message) (he : p.error = q.error) :
    render p = render q := by
  unfold render
  rw [hm, hh, he]

/-! ## Loop unfolding lemmas -/

/-- Loop step on `Cancel`. -/
theorem promptLoop_cancel (p : PasswordPrompt) (ks : List Key) :
    promptLoop p (Key.cancel :: ks)
      = ⟨Except.error InquireError.operationCanceled, render p, ks⟩ := rfl

/-- Loop step on an accepted `Submit`. -/
theorem promptLoop_submit_ok (p : PasswordPrompt) (ks : List Key) (a : List Char)
    (h : get_final_answer p = Except.ok a) :
    promptLoop p (Key.submit :: ks)
      = ⟨Except.ok a, render p ++ [RenderOp.cleanup p.message (p.formatter a)], ks⟩ := by
  simp [promptLoop, h]

/-- Loop step on a rejected `Submit`. -/
theorem promptLoop_submit_err (p : PasswordPrompt) (ks : List Key) (e : String)
    (h : get_final_answer p = Except.error e) :
    promptLoop p (Key.submit :: ks)
      = ⟨(promptLoop { p with error := some e } ks).result,
          render p ++ (promptLoop { p with error := some e } ks).output,
          (promptLoop { p with error := some e } ks).remaining⟩ := by
  simp [promptLoop, h]

/-- Loop step on any other key: feed it to `on_change`. -/
theorem promptLoop_other (p : PasswordPrompt) (k : Key) (ks : List Key)
    (h1 : k ≠ Key.submit) (h2 : k ≠ Key.cancel) :
    promptLoop p (k :: ks)
      = ⟨(promptLoop (on_change p k) ks).result,
          render p ++ (promptLoop (on_change p k) ks).output,
          (promptLoop (on_change p k) ks).remaining⟩ := by
  cases k with
  | submit => exact absurd rfl h1
  | cancel => exact absurd rfl h2
  | char c m => rfl
  | backspace => rfl
  | delete => rfl
  | up => rfl
  | down => rfl
  | left => rfl
  | right => rfl
  | help => rfl

/-- The emitted output always extends the current frame. -/
theorem promptLoop_output_eq (p : PasswordPrompt) (ks : List Key) :
    ∃ t, (promptLoop p ks).output = render p ++ t := by
  cases ks with
  | nil => exact ⟨[], by simp [promptLoop]⟩
  | cons k rest =>
    by_cases h1 : k = Key.submit
    · subst h1
      cases h : get_final_answer p with
      | ok a => exact ⟨_, by rw [promptLoop_submit_ok p rest a h]⟩
      | error e => exact ⟨_, by rw [promptLoop_submit_err p rest e h]⟩
    by_cases h2 : k = Key.cancel
    · subst h2
      exact ⟨[], by rw [promptLoop_cancel]; simp⟩
    · exact ⟨_, by rw [promptLoop_other p k rest h1 h2]⟩

/-- The loop always emits at least one frame. -/
theorem promptLoop_output_ne_nil (p : PasswordPrompt) (ks : List Key) :
    (promptLoop p ks).output ≠ [] := by
  obtain ⟨t, ht⟩ := promptLoop_output_eq p ks
  obtain ⟨r, hr⟩ := render_head p
  simp [ht, hr]

/-- If the loop returns an answer, the last emitted operation is the
cleanup paint of the formatted answer. -/
theorem promptLoop_ok_cleanup (ks : List Key) (p : PasswordPrompt) (a : List Char)
    (h : (promptLoop p ks).result = Except.ok a) :
    (promptLoop p ks).output.getLast?
      = some (RenderOp.cleanup p.message (p.formatter a)) := by
  induction ks generalizing p with
  | nil => simp [promptLoop] at h
  | cons k rest ih =>
    by_cases h1 : k = Key.submit
    · subst h1
      cases hg : get_final_answer p with
      | ok b =>
        rw [promptLoop_submit_ok p rest b hg] at h ⊢
        simp only at h
        cases h
        simp only
        exact List.getLast?_concat _
      | error e =>
        rw [promptLoop_submit_err p rest e hg] at h ⊢
        simp only at h ⊢
        have hres := ih { p with error := some e } h
        rw [List.getLast?_append, hres]
        rfl
    by_cases h2 : k = Key.cancel
    · subst h2
      rw [promptLoop_cancel] at h
      simp at h
    · rw [promptLoop_other p k rest h1 h2] at h ⊢
      simp only at h ⊢
      have hres := ih (on_change p k) h
      rw [List.getLast?_append, hres]
      rw [on_change_eq]
      rfl

/-- The returned result never depends on the formatter. -/
theorem promptLoop_formatter_result (ks : List Key) (p : PasswordPrompt)
    (f : StringFormatter) :
    (promptLoop { p with formatter := f } ks).result = (promptLoop p ks).result := by
  induction ks generalizing p with
  | nil => rfl
  | cons k rest ih =>
    by_cases h1 : k = Key.submit
    · subst h1
      have hg : get_final_answer { p with formatter := f } = get_final_answer p := rfl
      cases h : get_final_answer p with
      | ok a =>
        rw [promptLoop_submit_ok _ rest a (hg.trans h), promptLoop_submit_ok _ rest a h]
      | error e =>
        rw [promptLoop_submit_err _ rest e (hg.trans h), promptLoop_submit_err _ rest e h]
        exact ih { p with error := some e }
    by_cases h2 : k = Key.cancel
    · subst h2
      rw [promptLoop_cancel, promptLoop_cancel]
    · rw [promptLoop_other _ k rest h1 h2, promptLoop_other _ k rest h1 h2]
      simp only
      have hoc : on_change { p with formatter := f } k
          = { on_change p k with formatter := f } := by
        rw [on_change_eq, on_change_eq]
      rw [hoc]
      exact ih (on_change p k)

/-- `hasCleanup` distributes over append. -/
theorem hasCleanup_append (l₁ l₂ : List RenderOp) :
    hasCleanup (l₁ ++ l₂) = (hasCleanup l₁ || hasCleanup l₂) := List.any_append

/-- `reachesCancel` on a rejected submit recurses with the error set. -/
theorem reachesCancel_submit_err (p : PasswordPrompt) (rest : List Key) (e : String)
    (h : get_final_answer p = Except.error e) :
    reachesCancel p (Key.submit :: rest)
      = reachesCancel { p with error := some e } rest := by
  simp [reachesCancel, h]

/-- `reachesCancel` on an accepted submit is false. -/
theorem reachesCancel_submit_ok (p : PasswordPrompt) (rest : List Key) (a : List Char)
    (h : get_final_answer p = Except.ok a) :
    reachesCancel p (Key.submit :: rest) = false := by
  simp [reachesCancel, h]

/-- `reachesCancel` on an editing key recurses through `on_change`. -/
theorem reachesCancel_other (p : PasswordPrompt) (k : Key) (rest : List Key)
    (h1 : k ≠ Key.submit) (h2 : k ≠ Key.cancel) :
    reachesCancel p (k :: rest) = reachesCancel (on_change p k) rest := by
  cases k with
  | submit => exact absurd rfl h1
  | cancel => exact absurd rfl h2
  | char c m => rfl
  | backspace => rfl
  | delete => rfl
  | up => rfl
  | down => rfl
  | left => rfl
  | right => rfl
  | help => rfl

/-- Backspace always leaves the concatenation of all clusters but the
last. -/
theorem on_change_backspace_content (p : PasswordPrompt) :
    (on_change p Key.backspace).content = ((graphemes p.content).dropLast).flatten := by
  rw [on_change_eq]
  rfl

/-- Enough backspaces always empty the buffer. -/
theorem applyBackspaces_saturates (n : Nat) : ∀ p : PasswordPrompt,
    (graphemes p.content).length ≤ n → (applyBackspaces p n).content = [] := by
  induction n with
  | zero =>
    intro p hn
    have hnil : graphemes p.content = [] :=
      List.length_eq_zero.mp (Nat.le_zero.mp hn)
    show p.content = []
    rw [← graphemes_flatten p.content, hnil]
    rfl
  | succ n ih =>
    intro p hn
    show (applyBackspaces (on_change p Key.backspace) n).content = []
    apply ih
    have hc : graphemes ((on_change p Key.backspace).content)
        = (graphemes p.content).dropLast := by
      rw [on_change_backspace_content]
      exact graphemes_stable p.content
    rw [hc, List.length_dropLast]
    omega

/-! ## Claims -/

/-- C1: for every finite sequence of plain character-insert and backspace
key events with no submit, the buffered content after processing with
`on_change` equals the fold of "append character" / "drop last grapheme
cluster (no-op if empty)" over the event stream; lengths and deletions
count grapheme clusters, so a multi-code-point emoji is one deletion
unit. -/
theorem password_edit_is_fold (p : PasswordPrompt) (events : List Key)
    (h : ∀ k ∈ events, isEditKey k = true) :
    (applyEvents p events).content = events.foldl specEditStep p.content := by
  induction events generalizing p with
  | nil => rfl
  | cons k ks ih =>
    rw [applyEvents, List.foldl_cons]
    have hstep := ih (on_change p k) (fun k' hk' => h k' (List.mem_cons_of_mem _ hk'))
    rw [hstep, on_change_eq]

/-- Witness for C1 on typing `'a'`, a five-code-point emoji, then one
backspace (which removes the entire emoji cluster). -/
theorem password_edit_is_fold_witness :
    (∀ k ∈ emojiEvents, isEditKey k = true)
      ∧ (applyEvents qPrompt emojiEvents).content
          = emojiEvents.foldl specEditStep qPrompt.content :=
  ⟨by decide, password_edit_is_fold qPrompt emojiEvents (by decide)⟩

/-- C2: on `Submit` the validators run in declaration order against the
current content; on the first failure the loop continues with `error` set
to that validator's message and the content preserved unchanged; if all
pass, the loop terminates and the content is the final answer. -/
theorem password_submit_step (p : PasswordPrompt) (rest : List Key) :
    (firstFailingMessage p.validators p.content = none →
        promptLoop p (Key.submit :: rest)
          = ⟨Except.ok p.content,
              render p ++ [RenderOp.cleanup p.message (p.formatter p.content)], rest⟩)
      ∧ ∀ e, firstFailingMessage p.validators p.content = some e →
          promptLoop p (Key.submit :: rest)
            = ⟨(promptLoop { p with error := some e } rest).result,
                render p ++ (promptLoop { p with error := some e } rest).output,
                (promptLoop { p with error := some e } rest).remaining⟩ := by
  constructor
  · intro h
    apply promptLoop_submit_ok
    rw [get_final_answer_eq, h]
  · intro e h
    apply promptLoop_submit_err
    rw [get_final_answer_eq, h]

/-- Witness for C2: a validator-free prompt submits successfully; the
rejected ten-character content is preserved with the error recorded. -/
theorem password_submit_step_witness :
    promptLoop qPrompt [Key.submit]
        = ⟨Except.ok qPrompt.content,
            render qPrompt
              ++ [RenderOp.cleanup qPrompt.message (qPrompt.formatter qPrompt.content)], []⟩
      ∧ promptLoop failPrompt [Key.submit]
          = ⟨(promptLoop { failPrompt with error := some "Invalid" } []).result,
              render failPrompt ++ (promptLoop { failPrompt with error := some "Invalid" } []).output,
              (promptLoop { failPrompt with error := some "Invalid" } []).remaining⟩ :=
  ⟨(password_submit_step qPrompt []).1 rfl,
    (password_submit_step failPrompt []).2 "Invalid" (by decide)⟩

/-- C3: if a cancel key is reached before any accepted submit, the run
fails with `OperationCanceled` and no cleanup frame is painted. -/
theorem password_cancel_aborts (p : PasswordPrompt) (ks : List Key)
    (h : reachesCancel p ks = true) :
    (promptLoop p ks).result = Except.error InquireError.operationCanceled
      ∧ hasCleanup (promptLoop p ks).output = false := by
  induction ks generalizing p with
  | nil => simp [reachesCancel] at h
  | cons k rest ih =>
    by_cases h1 : k = Key.submit
    · subst h1
      cases hg : get_final_answer p with
      | ok a => rw [reachesCancel_submit_ok p rest a hg] at h; cases h
      | error e =>
        rw [reachesCancel_submit_err p rest e hg] at h
        obtain ⟨hr, hc⟩ := ih _ h
        rw [promptLoop_submit_err p rest e hg]
        refine ⟨hr, ?_⟩
        rw [hasCleanup_append, hasCleanup_render, hc]
        rfl
    by_cases h2 : k = Key.cancel
    · subst h2
      rw [promptLoop_cancel]
      exact ⟨rfl, hasCleanup_render p⟩
    · rw [reachesCancel_other p k rest h1 h2] at h
      obtain ⟨hr, hc⟩ := ih _ h
      rw [promptLoop_other p k rest h1 h2]
      refine ⟨hr, ?_⟩
      rw [hasCleanup_append, hasCleanup_render, hc]
      rfl

/-- Witness for C3: typing a character and cancelling aborts with a
cancellation error and paints no cleanup frame. -/
theorem password_cancel_aborts_witness :
    (promptLoop qPrompt [Key.char 'a' KeyModifiers.NONE, Key.cancel]).result
        = Except.error InquireError.operationCanceled
      ∧ hasCleanup (promptLoop qPrompt [Key.char 'a' KeyModifiers.NONE, Key.cancel]).output
          = false :=
  password_cancel_aborts qPrompt [Key.char 'a' KeyModifiers.NONE, Key.cancel] (by decide)

/-- C4: on success, the cleanup frame is painted with the formatted
answer, and the returned value is the raw content, unaffected by the
caller-supplied formatter. -/
theorem password_formatter_final_only (p : PasswordPrompt) (ks : List Key) (a : List Char)
    (h : (promptLoop p ks).result = Except.ok a) :
    (promptLoop p ks).output.getLast?
        = some (RenderOp.cleanup p.message (p.formatter a))
      ∧ ∀ f : StringFormatter,
          (promptLoop { p with formatter := f } ks).result = Except.ok a := by
  refine ⟨promptLoop_ok_cleanup ks p a h, ?_⟩
  intro f
  rw [promptLoop_formatter_result ks p f, h]

/-- Witness for C4: typing `'b'` and submitting returns `"b"` raw while
the cleanup frame shows the default mask. -/
theorem password_formatter_final_only_witness :
    (promptLoop qPrompt [Key.char 'b' KeyModifiers.NONE, Key.submit]).output.getLast?
        = some (RenderOp.cleanup qPrompt.message (qPrompt.formatter ['b']))
      ∧ ∀ f : StringFormatter,
          (promptLoop { qPrompt with formatter := f }
            [Key.char 'b' KeyModifiers.NONE, Key.submit]).result = Except.ok ['b'] :=
  password_formatter_final_only qPrompt [Key.char 'b' KeyModifiers.NONE, Key.submit] ['b'] rfl

/-- C5: the interactive render is independent of the buffered content:
two states equal in `message`, `help_message` and `error` render the same
frame, whatever their contents. -/
theorem password_render_masks_content (p q : PasswordPrompt)
    (hm : p.message = q.message) (hh : p.help_message = q.help_message)
    (he : p.error = q.error) :
    render p = render q :=
  render_eq_of_fields p q hm hh he

/-- Witness for C5: a state holding `"secret"` renders exactly like the
empty state. -/
theorem password_render_masks_content_witness :
    render { qPrompt with content := "secret".toList } = render qPrompt :=
  password_render_masks_content { qPrompt with content := "secret".toList } qPrompt
    rfl rfl rfl

/-- C6: backspace removes exactly the last grapheme cluster when the
content is non-empty, is a no-op on empty content, and saturates: at
least as many backspaces as clusters always leave the content empty. -/
theorem password_backspace_saturating (p : PasswordPrompt) :
    (on_change p Key.backspace).content = ((graphemes p.content).dropLast).flatten
      ∧ (p.content = [] → on_change p Key.backspace = p)
      ∧ (∀ g, (graphemes p.content).getLast? = some g →
          p.content = (on_change p Key.backspace).content ++ g)
      ∧ ∀ n, (graphemes p.content).length ≤ n → (applyBackspaces p n).content = [] := by
  refine ⟨on_change_backspace_content p, ?_, ?_, fun n hn => applyBackspaces_saturates n p hn⟩
  · intro h
    rw [on_change_eq]
    have hstep : specEditStep p.content Key.backspace = p.content := by
      rw [h]; rfl
    rw [hstep]
  · intro g hg
    have hne : graphemes p.content ≠ [] := by
      intro hnil
      rw [hnil] at hg
      cases hg
    have hg2 : (graphemes p.content).getLast hne = g := by
      rw [List.getLast?_eq_getLast _ hne] at hg
      cases hg
      rfl
    rw [on_change_backspace_content p]
    conv_lhs => rw [← graphemes_flatten p.content,
      ← List.dropLast_concat_getLast hne]
    rw [List.flatten_append, hg2]
    simp

/-- Witness for C6: six backspaces erase `'a'` plus a five-code-point
emoji (two clusters), and backspace on the empty state is the
identity. -/
theorem password_backspace_saturating_witness :
    (applyBackspaces { qPrompt with content := 'a' :: emojiChars } 6).content = []
      ∧ on_change qPrompt Key.backspace = qPrompt :=
  ⟨(password_backspace_saturating { qPrompt with content := 'a' :: emojiChars }).2.2.2
      6 (by decide),
    (password_backspace_saturating qPrompt).2.1 rfl⟩

/-- C7: a plain character is appended to the content; a character with
any other modifier is ignored; every key other than character, backspace,
submit and cancel leaves the state untouched. -/
theorem password_char_handling (p : PasswordPrompt) (c : Char) (m : KeyModifiers)
    (k : Key) (hm : m ≠ KeyModifiers.NONE)
    (hk : (∀ c2 m2, k ≠ Key.char c2 m2) ∧ k ≠ Key.backspace ∧ k ≠ Key.submit
      ∧ k ≠ Key.cancel) :
    (on_change p (Key.char c KeyModifiers.NONE)).content = p.content ++ [c]
      ∧ on_change p (Key.char c m) = p
      ∧ on_change p k = p := by
  refine ⟨rfl, ?_, ?_⟩
  · cases m with
    | NONE => exact absurd rfl hm
    | SHIFT => rfl
    | CONTROL => rfl
    | ALT => rfl
  · cases k with
    | char c2 m2 => exact absurd rfl (hk.1 c2 m2)
    | backspace => exact absurd rfl hk.2.1
    | submit => rfl
    | cancel => rfl
    | delete => rfl
    | up => rfl
    | down => rfl
    | left => rfl
    | right => rfl
    | help => rfl

/-- Witness for C7 with a shifted character and the delete key. -/
theorem password_char_handling_witness :
    (on_change qPrompt (Key.char 'x' KeyModifiers.NONE)).content = qPrompt.content ++ ['x']
      ∧ on_change qPrompt (Key.char 'x' KeyModifiers.SHIFT) = qPrompt
      ∧ on_change qPrompt Key.delete = qPrompt :=
  password_char_handling qPrompt 'x' KeyModifiers.SHIFT Key.delete (by decide)
    ⟨fun c2 m2 h => Key.noConfusion h, by decide, by decide, by decide⟩

/-- C8: `on_change` never consults validators (its content update is
independent of them) and, on any non-submit non-cancel key, changes no
field but `content`; a displayed error is the message of the single first
failing validator. -/
theorem password_validate_only_on_submit (p : PasswordPrompt) (k : Key)
    (_h1 : k ≠ Key.submit) (_h2 : k ≠ Key.cancel) :
    (on_change p k).message = p.message
      ∧ (on_change p k).help_message = p.help_message
      ∧ (on_change p k).error = p.error
      ∧ (on_change p k).formatter = p.formatter
      ∧ (on_change p k).validators = p.validators
      ∧ (∀ vs, (on_change { p with validators := vs } k).content = (on_change p k).content)
      ∧ ∀ e, get_final_answer p = Except.error e →
          ∃ pre v post, p.validators = pre ++ v :: post ∧ v p.content = Except.error e
            ∧ ∀ u ∈ pre, u p.content = Except.ok () := by
  refine ⟨by rw [on_change_eq], by rw [on_change_eq], by rw [on_change_eq],
    by rw [on_change_eq], by rw [on_change_eq], ?_, ?_⟩
  · intro vs
    rw [on_change_eq, on_change_eq]
  · intro e he
    have hv : validateAll p.validators p.content = Except.error e := by
      rw [get_final_answer] at he
      cases h3 : validateAll p.validators p.content with
      | ok u => rw [h3] at he; cases he
      | error e2 =>
        rw [h3] at he
        injection he with h5
        rw [h5]
    exact validateAll_error_first p.validators p.content e hv

/-- Witness for C8 at the backspace key on a state whose validator
rejects. -/
theorem password_validate_only_on_submit_witness :
    (on_change failPrompt Key.backspace).message = failPrompt.message
      ∧ (on_change failPrompt Key.backspace).help_message = failPrompt.help_message
      ∧ (on_change failPrompt Key.backspace).error = failPrompt.error
      ∧ (on_change failPrompt Key.backspace).formatter = failPrompt.formatter
      ∧ (on_change failPrompt Key.backspace).validators = failPrompt.validators
      ∧ (∀ vs, (on_change { failPrompt with validators := vs } Key.backspace).content
          = (on_change failPrompt Key.backspace).content)
      ∧ ∀ e, get_final_answer failPrompt = Except.error e →
          ∃ pre v post, failPrompt.validators = pre ++ v :: post
            ∧ v failPrompt.content = Except.error e
            ∧ ∀ u ∈ pre, u failPrompt.content = Except.ok () :=
  password_validate_only_on_submit failPrompt Key.backspace (by decide) (by decide)

/-- C9: `Password::new` yields the fixed `"********"` formatter, no
validators and no help message; a prompt built from it paints
`"********"` in the cleanup frame whatever was typed, while returning the
raw content. -/
theorem password_new_default_mask (m : String) (cs : List Char) (ks : List Key)
    (a : List Char) :
    (Password.new m).formatter cs = "********"
      ∧ (Password.new m).validators = []
      ∧ (Password.new m).help_message = none
      ∧ ((promptLoop (PasswordPrompt.ofPassword (Password.new m)) ks).result = Except.ok a →
          (promptLoop (PasswordPrompt.ofPassword (Password.new m)) ks).output.getLast?
              = some (RenderOp.cleanup m "********")
            ∧ ∀ f, (promptLoop
                (PasswordPrompt.ofPassword ((Password.new m).with_formatter f)) ks).result
                  = Except.ok a) := by
  refine ⟨rfl, rfl, rfl, fun h => ⟨?_, fun f => ?_⟩⟩
  · exact promptLoop_ok_cleanup ks (PasswordPrompt.ofPassword (Password.new m)) a h
  · have heq : PasswordPrompt.ofPassword ((Password.new m).with_formatter f)
        = { PasswordPrompt.ofPassword (Password.new m) with formatter := f } := rfl
    rw [heq, promptLoop_formatter_result, h]

/-- Witness for C9: typing `'b'` and submitting on a default prompt. -/
theorem password_new_default_mask_witness :
    (Password.new "Q").formatter [] = "********"
      ∧ (Password.new "Q").validators = []
      ∧ (Password.new "Q").help_message = none
      ∧ ((promptLoop (PasswordPrompt.ofPassword (Password.new "Q"))
            [Key.char 'b' KeyModifiers.NONE, Key.submit]).output.getLast?
              = some (RenderOp.cleanup "Q" "********")
          ∧ ∀ f, (promptLoop
              (PasswordPrompt.ofPassword ((Password.new "Q").with_formatter f))
              [Key.char 'b' KeyModifiers.NONE, Key.submit]).result = Except.ok ['b']) :=
  ⟨(password_new_default_mask "Q" [] [Key.char 'b' KeyModifiers.NONE, Key.submit] ['b']).1,
    (password_new_default_mask "Q" [] [Key.char 'b' KeyModifiers.NONE, Key.submit] ['b']).2.1,
    (password_new_default_mask "Q" [] [Key.char 'b' KeyModifiers.NONE, Key.submit] ['b']).2.2.1,
    (password_new_default_mask "Q" [] [Key.char 'b' KeyModifiers.NONE, Key.submit] ['b']).2.2.2
      rfl⟩

/-- C10: a script containing a cancel, or a submit whose accumulated
content passes all validators, makes the loop return a result (an answer
or a cancellation) consuming at most the events up to and including that
key. -/
theorem password_loop_terminates (p : PasswordPrompt) (pre : List Key) (k : Key)
    (rest : List Key)
    (h : k = Key.cancel
      ∨ (k = Key.submit
          ∧ validateAll p.validators (pre.foldl specEditStep p.content) = Except.ok ())) :
    ((∃ a, (promptLoop p (pre ++ k :: rest)).result = Except.ok a)
        ∨ (promptLoop p (pre ++ k :: rest)).result
            = Except.error InquireError.operationCanceled)
      ∧ rest.length ≤ (promptLoop p (pre ++ k :: rest)).remaining.length := by
  induction pre generalizing p with
  | nil =>
    rcases h with rfl | ⟨rfl, hv⟩
    · rw [List.nil_append, promptLoop_cancel]
      exact ⟨Or.inr rfl, Nat.le_refl _⟩
    · have hg : get_final_answer p = Except.ok p.content := by
        rw [get_final_answer]
        rw [List.foldl_nil] at hv
        rw [hv]
      rw [List.nil_append, promptLoop_submit_ok p rest p.content hg]
      exact ⟨Or.inl ⟨p.content, rfl⟩, Nat.le_refl _⟩
  | cons b pre2 ih =>
    rw [List.cons_append]
    by_cases hb1 : b = Key.submit
    · subst hb1
      cases hg : get_final_answer p with
      | ok ans =>
        rw [promptLoop_submit_ok p _ ans hg]
        refine ⟨Or.inl ⟨ans, rfl⟩, ?_⟩
        simp [List.length_append]
        omega
      | error e =>
        rw [promptLoop_submit_err p _ e hg]
        have h4 : k = Key.cancel
            ∨ (k = Key.submit ∧ validateAll ({ p with error := some e }).validators
                (pre2.foldl specEditStep ({ p with error := some e }).content)
                  = Except.ok ()) := by
          rcases h with rfl | ⟨rfl, hv⟩
          · exact Or.inl rfl
          · refine Or.inr ⟨rfl, ?_⟩
            rw [List.foldl_cons] at hv
            exact hv
        exact ih { p with error := some e } h4
    by_cases hb2 : b = Key.cancel
    · subst hb2
      rw [promptLoop_cancel]
      refine ⟨Or.inr rfl, ?_⟩
      simp [List.length_append]
      omega
    · rw [promptLoop_other p b _ hb1 hb2]
      have h4 : k = Key.cancel
          ∨ (k = Key.submit ∧ validateAll (on_change p b).validators
              (pre2.foldl specEditStep (on_change p b).content) = Except.ok ()) := by
        rcases h with rfl | ⟨rfl, hv⟩
        · exact Or.inl rfl
        · refine Or.inr ⟨rfl, ?_⟩
          rw [List.foldl_cons] at hv
          rw [on_change_eq]
          exact hv
      exact ih (on_change p b) h4

/-- Witness for C10: `'a'`, an accepted submit, then an unread cancel. -/
theorem password_loop_terminates_witness :
    ((∃ a, (promptLoop qPrompt
          ([Key.char 'a' KeyModifiers.NONE] ++ Key.submit :: [Key.cancel])).result
            = Except.ok a)
        ∨ (promptLoop qPrompt
            ([Key.char 'a' KeyModifiers.NONE] ++ Key.submit :: [Key.cancel])).result
              = Except.error InquireError.operationCanceled)
      ∧ [Key.cancel].length ≤ (promptLoop qPrompt
          ([Key.char 'a' KeyModifiers.NONE] ++ Key.submit :: [Key.cancel])).remaining.length :=
  password_loop_terminates qPrompt [Key.char 'a' KeyModifiers.NONE] Key.submit [Key.cancel]
    (Or.inr ⟨rfl, rfl⟩)
